import Mathlib

/-!
Shallow embedding of the MR.ZPAYTZO-rev0/rev2 vintage TTS core:
`src/diphone_synthesizer.py`, `src/vintage_dsp.py` and
`src/enhanced_vintage_dsp.py`.

Audio samples are real numbers.  Every `np.random.*` draw in the source is
modelled by an explicit stream `ℕ → ℝ` passed to the function that performs
the draw (the stream holds the realised unit draws; the amplitude factor from
the source stays visible in the formula).  Durations and sample counts are
rationals/naturals so that they stay decidable.
-/

/-- Models `np.round`: round to the nearest integer, ties to the even
neighbour (banker's rounding, numpy's documented behaviour). -/
noncomputable def npRound (x : ℝ) : ℤ :=
  if Int.fract x = 1 / 2 then (if Even ⌊x⌋ then ⌊x⌋ else ⌊x⌋ + 1) else round x

/-- Models Python `int()` applied to a rational value: truncation toward 0. -/
def truncQ (q : ℚ) : ℤ := if q < 0 then ⌈q⌉ else ⌊q⌋

/-- Models Python `int()` applied to a float value: truncation toward 0. -/
noncomputable def truncR (x : ℝ) : ℤ := if x < 0 then ⌈x⌉ else ⌊x⌋

/-- Models `np.clip(x, -1.0, 1.0)` on one sample. -/
noncomputable def clip1 (x : ℝ) : ℝ := max (-1) (min 1 x)

/-- Models `np.linspace(a, b, n)` (endpoint included, numpy default). -/
noncomputable def linspace (a b : ℝ) (n : ℕ) : List ℝ :=
  (List.range n).map fun (i : ℕ) => a + (b - a) * (i : ℝ) / ((n : ℝ) - 1)

/-- Models `np.linspace(a, b, n, endpoint=False)`. -/
noncomputable def linspaceEF (a b : ℝ) (n : ℕ) : List ℝ :=
  (List.range n).map fun (i : ℕ) => a + (b - a) * (i : ℝ) / (n : ℝ)

/-- Models `np.cumsum`. -/
noncomputable def cumsum (l : List ℝ) : List ℝ := (l.scanl (· + ·) 0).tail

/-- Models `np.convolve(a, k)` (mode `full`): index `i` of the result is
`Σ_j a[i-j]·k[j]`. -/
noncomputable def convolveFull (a k : List ℝ) : List ℝ :=
  (List.range (a.length + k.length - 1)).map fun i =>
    ((List.range k.length).map fun j =>
      if j ≤ i then a.getD (i - j) 0 * k.getD j 0 else 0).sum

/-- Models `np.convolve(a, k, mode='same')`: the centred `max(len a, len k)`
slice of the full convolution. -/
noncomputable def npConvolveSame (a k : List ℝ) : List ℝ :=
  ((convolveFull a k).drop ((min a.length k.length - 1) / 2)).take
    (max a.length k.length)

/-- One-pole low-pass recursion `y[i] = α·y[i-1] + (1-α)·x[i]` started from a
previous-output state (the source's `filtered[0] = x[0]*(1-α)` is this
recursion started from state 0). -/
noncomputable def lpGo (α : ℝ) : ℝ → List ℝ → List ℝ
  | _, [] => []
  | prev, x :: rest =>
    let y := α * prev + (1 - α) * x
    y :: lpGo α y rest

/-- One-pole high-pass recursion `y[i] = α·y[i-1] + α·(x[i] - x[i-1])`,
carrying the previous output and previous input. -/
noncomputable def hpGo (α : ℝ) : ℝ → ℝ → List ℝ → List ℝ
  | _, _, [] => []
  | py, px, x :: rest =>
    let y := α * py + α * (x - px)
    y :: hpGo α y x rest

/-- Resonant peaking recursion used by the speech-emphasis filters:
`y[i] = x[i] + b·(A·c·y[i-1] - A²·y[i-2])` with `c = cos ω_center`. -/
noncomputable def seGo (A b c : ℝ) : ℝ → ℝ → List ℝ → List ℝ
  | _, _, [] => []
  | y2, y1, x :: rest =>
    let y := x + b * (A * c * y1 - A * A * y2)
    y :: seGo A b c y1 y rest

/-- Attack/release envelope smoothing used by the compressors:
attack branch when the envelope rises above the previous smoothed value. -/
noncomputable def compGo (ac rc : ℝ) : ℝ → List ℝ → List ℝ
  | _, [] => []
  | prev, e :: rest =>
    let s := if prev < e then ac * e + (1 - ac) * prev else rc * e + (1 - rc) * prev
    s :: compGo ac rc s rest

/-- Helper: lookup in an association list returning a member pair. -/
def lookupPairs {α β : Type} [BEq α] (l : List (α × β)) (a : α) : Option β :=
  List.lookup a l

namespace DiphoneSynthesizer

/-- Models `phoneme.startswith('<PAUSE')`. -/
def is_pause_marker (s : String) : Bool := "<PAUSE".toList.isPrefixOf s.toList

/-- Models the Python substring test `needle in hay`. -/
def str_contains (hay needle : String) : Bool :=
  hay.toList.tails.any fun t => needle.toList.isPrefixOf t

/-- Table from `_load_phoneme_durations` (seconds, as exact rationals). -/
def phoneme_durations : List (String × ℚ) :=
  [("AA", 12/100), ("AE", 10/100), ("AH", 8/100), ("AO", 12/100),
   ("AW", 14/100), ("AY", 14/100), ("EH", 10/100), ("ER", 12/100),
   ("EY", 14/100), ("IH", 8/100), ("IY", 12/100), ("OW", 14/100),
   ("OY", 14/100), ("UH", 8/100), ("UW", 12/100),
   ("B", 6/100), ("CH", 8/100), ("D", 4/100), ("DH", 6/100), ("F", 8/100),
   ("G", 6/100), ("HH", 6/100), ("JH", 8/100), ("K", 6/100), ("L", 6/100),
   ("M", 6/100), ("N", 6/100), ("NG", 8/100), ("P", 6/100), ("R", 6/100),
   ("S", 8/100), ("SH", 8/100), ("T", 4/100), ("TH", 8/100), ("V", 6/100),
   ("W", 6/100), ("Y", 6/100), ("Z", 6/100), ("ZH", 8/100),
   ("SIL", 2/100)]

/-- Set from `_is_voiced_phoneme`. -/
def voiced_phonemes : List String :=
  ["AA", "AE", "AH", "AO", "AW", "AY", "EH", "ER", "EY", "IH", "IY", "OW",
   "OY", "UH", "UW", "B", "D", "G", "V", "DH", "Z", "ZH", "JH", "M", "N",
   "NG", "L", "R", "W", "Y"]

/-- Models `_is_voiced_phoneme`. -/
def is_voiced_phoneme (p : String) : Bool := voiced_phonemes.contains p

/-- Body of the adjacent-pair loop in `_phonemes_to_diphones`: the emitted
unit for the pair `(a, b)`.  When either element is a pause marker the
CURRENT element `a` is appended; otherwise the diphone name `a-b`. -/
def mk_pair_unit (a b : String) : String :=
  if is_pause_marker a || is_pause_marker b then a else a ++ "-" ++ b

/-- The adjacent-pair loop of `_phonemes_to_diphones` (`for i in
range(len(phonemes)-1)`). -/
def diphone_pairs : List String → List String
  | a :: b :: rest => mk_pair_unit a b :: diphone_pairs (b :: rest)
  | _ => []

/-- Models `_phonemes_to_diphones`: optional leading `SIL-x`, the pair loop,
optional trailing `x-SIL`. -/
def phonemes_to_diphones (phonemes : List String) : List String :=
  (match phonemes with
   | [] => []
   | x :: _ => if is_pause_marker x then [] else ["SIL-" ++ x])
  ++ diphone_pairs phonemes
  ++ (match phonemes.getLast? with
      | none => []
      | some x => if is_pause_marker x then [] else [x ++ "-SIL"])

/-- Models `diphone.split('-', 1)` with the no-dash fallback
`start = end = diphone` of `_synthesize_diphone`. -/
def split_diphone_name (s : String) : String × String :=
  let cs := s.toList
  if cs.contains '-' then
    (String.mk (cs.takeWhile (· ≠ '-')), String.mk ((cs.dropWhile (· ≠ '-')).drop 1))
  else (s, s)

/-- Models `_get_diphone_duration` (seconds): 0.08·0.5 for any diphone
touching `SIL`, else the start phoneme's table entry, else the 0.08 base. -/
def get_diphone_duration (s e : String) : ℚ :=
  if s = "SIL" ∨ e = "SIL" then (8/100) * (1/2)
  else match lookupPairs phoneme_durations s with
    | some d => d
    | none => 8/100

/-- Models `_get_pause_duration` (substring checks on the marker). -/
def get_pause_duration (m : String) : ℚ :=
  if str_contains m "LONG" then 1/2
  else if str_contains m "MEDIUM" then 3/10
  else if str_contains m "SHORT" then 1/5
  else 3/10

/-- Models `int(duration * self.sample_rate)` as a list length. -/
def natSamples (sr : ℕ) (d : ℚ) : ℕ := (truncQ (d * sr)).toNat

/-- Formant targets of one phoneme (`F1..F3` in Hz, `A1..A3` relative). -/
structure Formants where
  F1 : ℝ
  F2 : ℝ
  F3 : ℝ
  A1 : ℝ
  A2 : ℝ
  A3 : ℝ

/-- Table from `_load_formant_frequencies`. -/
noncomputable def formant_frequencies : List (String × Formants) :=
  [("AA", ⟨730, 1090, 2440, 1.0, 0.6, 0.3⟩),
   ("AE", ⟨660, 1720, 2410, 1.0, 0.8, 0.3⟩),
   ("AH", ⟨520, 1190, 2390, 1.0, 0.5, 0.2⟩),
   ("AO", ⟨570, 840, 2410, 1.0, 0.4, 0.2⟩),
   ("EH", ⟨530, 1840, 2480, 1.0, 0.7, 0.3⟩),
   ("ER", ⟨490, 1350, 1690, 1.0, 0.6, 0.4⟩),
   ("IH", ⟨390, 1990, 2550, 1.0, 0.8, 0.3⟩),
   ("IY", ⟨270, 2290, 3010, 1.0, 0.9, 0.4⟩),
   ("OW", ⟨570, 840, 2410, 1.0, 0.4, 0.2⟩),
   ("UH", ⟨440, 1020, 2240, 1.0, 0.4, 0.2⟩),
   ("UW", ⟨300, 870, 2240, 1.0, 0.3, 0.2⟩),
   ("AY", ⟨660, 1720, 2410, 1.0, 0.8, 0.3⟩),
   ("AW", ⟨730, 1090, 2440, 1.0, 0.6, 0.3⟩),
   ("EY", ⟨530, 1840, 2480, 1.0, 0.7, 0.3⟩),
   ("OY", ⟨570, 840, 2410, 1.0, 0.4, 0.2⟩),
   ("B", ⟨200, 1000, 2500, 0.3, 0.2, 0.1⟩),
   ("D", ⟨200, 1700, 2600, 0.3, 0.2, 0.1⟩),
   ("G", ⟨200, 1400, 2200, 0.3, 0.2, 0.1⟩),
   ("P", ⟨200, 1000, 2500, 0.1, 0.1, 0.05⟩),
   ("T", ⟨200, 1700, 2600, 0.1, 0.1, 0.05⟩),
   ("K", ⟨200, 1400, 2200, 0.1, 0.1, 0.05⟩),
   ("M", ⟨250, 1000, 2200, 0.8, 0.3, 0.2⟩),
   ("N", ⟨250, 1700, 2600, 0.8, 0.3, 0.2⟩),
   ("NG", ⟨250, 1400, 2200, 0.8, 0.3, 0.2⟩),
   ("L", ⟨400, 1200, 2600, 0.9, 0.5, 0.3⟩),
   ("R", ⟨300, 1300, 1600, 0.9, 0.5, 0.4⟩),
   ("W", ⟨300, 870, 2240, 0.8, 0.3, 0.2⟩),
   ("Y", ⟨270, 2290, 3010, 0.8, 0.7, 0.3⟩),
   ("F", ⟨200, 1000, 4000, 0.2, 0.3, 0.8⟩),
   ("V", ⟨200, 1000, 4000, 0.4, 0.4, 0.6⟩),
   ("TH", ⟨200, 1400, 4500, 0.2, 0.3, 0.8⟩),
   ("DH", ⟨200, 1400, 4500, 0.4, 0.4, 0.6⟩),
   ("S", ⟨200, 2000, 6000, 0.1, 0.5, 1.0⟩),
   ("Z", ⟨200, 2000, 6000, 0.3, 0.6, 0.8⟩),
   ("SH", ⟨200, 1200, 4000, 0.1, 0.3, 0.9⟩),
   ("ZH", ⟨200, 1200, 4000, 0.3, 0.4, 0.7⟩),
   ("CH", ⟨200, 1200, 4000, 0.1, 0.3, 0.8⟩),
   ("JH", ⟨200, 1200, 4000, 0.3, 0.4, 0.6⟩),
   ("HH", ⟨300, 1500, 3000, 0.3, 0.2, 0.1⟩),
   ("SIL", ⟨0, 0, 0, 0.0, 0.0, 0.0⟩)]

/-- Models `_get_default_formants` (fallback for unknown phonemes). -/
noncomputable def get_default_formants : Formants := ⟨500, 1500, 2500, 0.5, 0.3, 0.1⟩

/-- Models `_generate_pulse_train`: integrate F0 into phase and take a
sawtooth `2·(c - floor(c + 0.5))` with `c = phase/2π`, scaled by voicing. -/
noncomputable def generate_pulse_train (sr : ℕ) (t f0 voicing : List ℝ) : List ℝ :=
  let dt := if 1 < t.length then t.getD 1 0 - t.getD 0 0 else 1 / (sr : ℝ)
  let phase := (0 : ℝ) :: ((cumsum (f0.dropLast.map (· * dt))).map (· * (2 * Real.pi)))
  let saw := phase.map fun ph =>
    2 * (ph / (2 * Real.pi) - (⌊ph / (2 * Real.pi) + 1/2⌋ : ℤ))
  List.zipWith (· * ·) saw voicing

/-- Models `_apply_highpass_filter` (fricative shaping, `exp(-ω)` pole). -/
noncomputable def apply_highpass_filter (sr : ℕ) (signal : List ℝ) (cutoff : ℝ) :
    List ℝ :=
  if signal.length ≤ 1 then signal
  else match signal with
    | [] => []
    | x :: rest => x :: hpGo (Real.exp (-(2 * Real.pi * cutoff / sr))) x x rest

/-- Models `_apply_burst_shaping`: exponential-decay envelope over the first
`min(n/4, 100)` samples. -/
noncomputable def apply_burst_shaping (noise : List ℝ) : List ℝ :=
  let decay := min (noise.length / 4) 100
  let env := (linspace 0 3 decay).map (fun u => Real.exp (-u))
    ++ List.replicate (noise.length - decay) 1
  List.zipWith (· * ·) noise env

/-- Models `_generate_noise`; `g` is the stream of realised
`np.random.normal(0,1)` draws. -/
noncomputable def generate_noise (sr : ℕ) (g : ℕ → ℝ) (n : ℕ) (sp ep : String) :
    List ℝ :=
  let noise := (List.range n).map g
  if ["S", "SH", "F", "TH"].contains sp || ["S", "SH", "F", "TH"].contains ep then
    apply_highpass_filter sr noise 2000
  else if ["P", "T", "K"].contains sp || ["P", "T", "K"].contains ep then
    apply_burst_shaping noise
  else noise

/-- Per-sample loop of `_apply_formant_filter`, threading the previous two
output samples; `i` is the running index of the loop.  When the instantaneous
frequency is not positive the output sample stays 0 (the source's
`if freq > 0` guard). -/
noncomputable def ffGo (sr : ℕ) (bw : ℝ) : ℕ → ℝ → ℝ → List ℝ → List ℝ → List ℝ → List ℝ
  | _, _, _, [], _, _ => []
  | _, _, _, _ :: _, [], _ => []
  | _, _, _, _ :: _, _ :: _, [] => []
  | i, y2, y1, x :: xs, f :: fs, a :: aas =>
    let r := 1 - bw / (sr : ℝ)
    let y := if 0 < f then
        (if 2 ≤ i then
          a * x + 2 * r * Real.cos (2 * Real.pi * f / sr) * y1 - r * r * y2
        else a * x)
      else 0
    y :: ffGo sr bw (i + 1) y1 y xs fs aas

/-- Models `_apply_formant_filter` (zero initial filter state). -/
noncomputable def apply_formant_filter (sr : ℕ) (source freq amp : List ℝ)
    (bw : ℝ) : List ℝ :=
  ffGo sr bw 0 0 0 source freq amp

/-- Models `_generate_amplitude_envelope` (the phoneme arguments are unused in
the source as well). -/
noncomputable def generate_amplitude_envelope (n : ℕ) (_sp _ep : String) : List ℝ :=
  if n ≤ 1 then List.replicate n 1
  else
    let attack := min (n / 8) 50
    let decay := min (n / 8) 50
    linspace 0 1 attack ++ List.replicate (n - attack - decay) 1 ++ linspace 1 0 decay

/-- Models `_formant_synthesis`: voicing/F0/formant contour interpolation,
source generation, three-resonator filtering, 0.5/0.3/0.2 mixing, envelope,
peak normalisation to 0.8. -/
noncomputable def formant_synthesis (sr : ℕ) (g : ℕ → ℝ) (t : List ℝ)
    (sf ef : Formants) (sp ep : String) : List ℝ :=
  if t.length = 0 then []
  else
    let n := t.length
    let vs : ℝ := if is_voiced_phoneme sp then 1 else 0
    let ve : ℝ := if is_voiced_phoneme ep then 1 else 0
    let voicing := linspace vs ve n
    let f0 := linspace (if is_voiced_phoneme sp then 120 else 0)
      (if is_voiced_phoneme ep then 120 else 0) n
    let f1 := linspace sf.F1 ef.F1 n
    let f2 := linspace sf.F2 ef.F2 n
    let f3 := linspace sf.F3 ef.F3 n
    let a1 := linspace sf.A1 ef.A1 n
    let a2 := linspace sf.A2 ef.A2 n
    let a3 := linspace sf.A3 ef.A3 n
    let source := if ∃ v ∈ voicing, 0 < v then generate_pulse_train sr t f0 voicing
      else generate_noise sr g n sp ep
    let fo1 := apply_formant_filter sr source f1 a1 100
    let fo2 := apply_formant_filter sr source f2 a2 100
    let fo3 := apply_formant_filter sr source f3 a3 100
    let mixed := List.zipWith (· + ·)
      (List.zipWith (· + ·) (fo1.map (0.5 * ·)) (fo2.map (0.3 * ·)))
      (fo3.map (0.2 * ·))
    let shaped := List.zipWith (· * ·) mixed (generate_amplitude_envelope n sp ep)
    let peak := (shaped.map fun x => |x|).foldr max 0
    if 0 < peak then shaped.map fun x => x / peak * 0.8 else shaped

/-- Models `_synthesize_diphone`: parse the name, look up formants and
duration, build the time vector and synthesize. -/
noncomputable def synthesize_diphone (sr : ℕ) (g : ℕ → ℝ) (diphone : String) :
    List ℝ :=
  let se := split_diphone_name diphone
  let sf := (lookupPairs formant_frequencies se.1).getD get_default_formants
  let ef := (lookupPairs formant_frequencies se.2).getD get_default_formants
  let dur := get_diphone_duration se.1 se.2
  let n := natSamples sr dur
  if n = 0 then []
  else formant_synthesis sr g (linspaceEF 0 (dur : ℝ) n) sf ef se.1 se.2

/-- Models `_apply_vintage_processing`: length-3 moving average (when the
buffer has more than one sample) followed by the unconditional 256-level
quantisation `round(x·256/2)·2/256`. -/
noncomputable def apply_vintage_processing (audio : List ℝ) : List ℝ :=
  if audio.length = 0 then audio
  else
    let a1 := if 1 < audio.length then npConvolveSame audio [1/3, 1/3, 1/3] else audio
    a1.map fun x => (npRound (x * 256 / 2) : ℝ) * 2 / 256

/-- Models `DiphoneSynthesizer.synthesize`; `g i` is the Gaussian draw stream
used by the `i`-th unit's synthesis call. -/
noncomputable def synthesize (sr : ℕ) (g : ℕ → ℕ → ℝ) (phonemes : List String) :
    List ℝ :=
  if phonemes = [] then []
  else
    let ds := phonemes_to_diphones phonemes
    let segs := ds.mapIdx fun i d =>
      if is_pause_marker d then
        List.replicate (natSamples sr (get_pause_duration d)) (0 : ℝ)
      else synthesize_diphone sr (g i) d
    apply_vintage_processing segs.flatten

/-- Number of samples contributed by one unit of the diphone sequence: a
pause marker yields `int(pause_duration·sr)` zeros, a diphone yields
`int(duration·sr)` synthesized samples. -/
def unit_samples (sr : ℕ) (u : String) : ℕ :=
  if is_pause_marker u then natSamples sr (get_pause_duration u)
  else natSamples sr
    (get_diphone_duration (split_diphone_name u).1 (split_diphone_name u).2)

end DiphoneSynthesizer

namespace VintageDSP

/-- Models `_simulate_analog_frontend`: even-harmonic distortion plus a DC
offset, applied per sample with no length guard. -/
noncomputable def simulate_analog_frontend (audio : List ℝ) : List ℝ :=
  audio.map fun x => x + 0.002 * Real.sign x * x ^ 2 + 0.001

/-- Models `_apply_vintage_antialiasing`: one-pole low-pass at 10 kHz,
length ≤ 1 buffers returned unchanged. -/
noncomputable def apply_vintage_antialiasing (sr : ℕ) (audio : List ℝ) : List ℝ :=
  if audio.length ≤ 1 then audio
  else lpGo (Real.exp (-(2 * Real.pi * 10000 / sr))) 0 audio

/-- The pre-noise quantisation step of `_apply_bit_crushing`:
`np.round(x·maxLevel)/maxLevel` with `maxLevel = 2^(bits-1) - 1`. -/
noncomputable def bit_crush_quantize (bits : ℕ) (x : ℝ) : ℝ :=
  (npRound (x * (2 ^ (bits - 1) - 1)) : ℝ) / (2 ^ (bits - 1) - 1)

/-- Models `_apply_bit_crushing`; `u` is the stream of realised unit draws of
`np.random.uniform(-amp, amp)` (so `|u i| ≤ 1` for actual draws), with
`amp = 0.5/2^bits` kept visible in the formula. -/
noncomputable def apply_bit_crushing (bits : ℕ) (u : ℕ → ℝ) (audio : List ℝ) :
    List ℝ :=
  if 16 ≤ bits then audio
  else
    let q := audio.map (bit_crush_quantize bits)
    let q2 := q.mapIdx fun i x => x + (1 / 2 ^ bits * 0.5) * u i
    q2.map clip1

/-- Models `_apply_sample_rate_artifacts`: add `0.001·sin(2π·(0.7·sr)·t)` to
buffers with more than one sample. -/
noncomputable def apply_sample_rate_artifacts (sr : ℕ) (audio : List ℝ) : List ℝ :=
  if 1 < audio.length then
    audio.mapIdx fun i x =>
      x + 0.001 * Real.sin (2 * Real.pi * (0.7 * sr) * ((i : ℝ) / sr))
  else audio

/-- Models `_apply_vintage_lowpass`: two cascaded one-pole stages. -/
noncomputable def apply_vintage_lowpass (sr : ℕ) (cutoff : ℝ) (audio : List ℝ) :
    List ℝ :=
  let α := Real.exp (-(2 * Real.pi * cutoff / sr))
  lpGo α 0 (lpGo α 0 audio)

/-- Models `_apply_vintage_highpass` (length ≤ 1 returned unchanged,
`output[0] = audio[0]`). -/
noncomputable def apply_vintage_highpass (sr : ℕ) (cutoff : ℝ) (audio : List ℝ) :
    List ℝ :=
  if audio.length ≤ 1 then audio
  else match audio with
    | [] => []
    | x :: rest => x :: hpGo (Real.exp (-(2 * Real.pi * cutoff / sr))) x x rest

/-- Models `_apply_speech_emphasis`: pole radius 0.9, gain 1.2, resonance at
3 kHz; buffers of length ≤ 2 are scaled by the gain. -/
noncomputable def apply_speech_emphasis (sr : ℕ) (audio : List ℝ) : List ℝ :=
  if audio.length ≤ 2 then audio.map (· * 1.2)
  else match audio with
    | x0 :: x1 :: rest =>
      x0 :: x1 :: seGo 0.9 (1.2 - 1) (Real.cos (2 * Real.pi * 3000 / sr)) x0 x1 rest
    | l => l

/-- Models `_apply_frequency_response_shaping`: 8 kHz low-pass, 200 Hz
high-pass, speech emphasis; length ≤ 1 returned unchanged. -/
noncomputable def apply_frequency_response_shaping (sr : ℕ) (audio : List ℝ) :
    List ℝ :=
  if audio.length ≤ 1 then audio
  else apply_speech_emphasis sr
    (apply_vintage_highpass sr 200 (apply_vintage_lowpass sr 8000 audio))

/-- Envelope smoothing of `_apply_vintage_compression` (first smoothed value
is the raw envelope value). -/
noncomputable def smooth_envelope_list (ac rc : ℝ) (env : List ℝ) : List ℝ :=
  match env with
  | [] => []
  | e :: rest => e :: compGo ac rc e rest

/-- Models `_apply_vintage_compression`: threshold 0.8, ratio 4, attack 0.1,
release 0.001, soft gain reduction above the threshold. -/
noncomputable def apply_vintage_compression (audio : List ℝ) : List ℝ :=
  if audio.length = 0 then audio
  else
    let env := audio.map fun x => |x|
    let sm := smooth_envelope_list 0.1 0.001 env
    List.zipWith
      (fun x s => x * (if 0.8 < s then 0.8 / s * (1 + (s - 0.8) / 4) else 1))
      audio sm

/-- Models `_apply_output_stage_processing`: even-harmonic term, 20 Hz
DC-blocking high-pass (length > 1), 0.9 gain trim, final hard clamp. -/
noncomputable def apply_output_stage_processing (sr : ℕ) (audio : List ℝ) :
    List ℝ :=
  let a1 := audio.map fun x => x + 0.001 * x ^ 2
  let a2 := if 1 < a1.length then apply_vintage_highpass sr 20 a1 else a1
  (a2.map (· * 0.9)).map clip1

/-- Models `VintageDSP.process`: the seven-stage baseline chain. -/
noncomputable def process (sr bits : ℕ) (u : ℕ → ℝ) (audio : List ℝ) : List ℝ :=
  if audio.length = 0 then audio
  else
    apply_output_stage_processing sr
      (apply_vintage_compression
        (apply_frequency_response_shaping sr
          (apply_sample_rate_artifacts sr
            (apply_bit_crushing bits u
              (apply_vintage_antialiasing sr
                (simulate_analog_frontend audio))))))

/-- Models `apply_sound_blaster_characteristics`; the float-to-uint8 cast is
modelled as truncation toward 0 followed by reduction mod 256, and `gsb` is
the stream of realised unit Gaussian draws of the noise-floor noise. -/
noncomputable def apply_sound_blaster_characteristics (sr bits : ℕ)
    (gsb : ℕ → ℝ) (audio : List ℝ) : List ℝ :=
  let a1 := if bits = 8 then
      audio.map fun x => ((truncR ((x + 1) * 127.5) % 256 : ℤ) : ℝ) / 127.5 - 1
    else audio
  let a2 := apply_vintage_lowpass sr 11000 a1
  a2.mapIdx fun i x => x + (10 : ℝ) ^ (-(48 : ℝ) / 20) * gsb i

end VintageDSP

namespace EnhancedVintageDSP

/-- Configuration of `EnhancedVintageDSP` as resolved in `__init__` /
`_setup_quality_parameters`. -/
structure Config where
  sample_rate : ℕ
  bit_depth : ℕ
  intensity : ℝ
  enabled : Bool
  preset : String
  quantization_noise : Bool
  analog_simulation : Bool
  frequency_response_shaping : Bool
  spectral_enhancement : Bool
  harmonic_enrichment : Bool
  noise_reduction : Bool
  temporal_smoothing : Bool

/-- Realised noise draws used by the enhanced chain (thermal noise,
quantisation noise, dither, Sound-Blaster noise floor). -/
structure Noises where
  thermal : ℕ → ℝ
  quant : ℕ → ℝ
  dither : ℕ → ℝ
  sb : ℕ → ℝ

/-- Models the `max_frequency` computed by `_setup_quality_parameters`. -/
noncomputable def max_frequency (c : Config) : ℝ :=
  if 0.8 < c.intensity then 8000
  else if 0.5 < c.intensity then 11025
  else ((min (c.sample_rate / 2) 16000 : ℕ) : ℝ)

/-- Models `_simulate_analog_frontend_enhanced`: intensity-scaled distortion
and DC offset, plus thermal noise when the bit depth is ≤ 8. -/
noncomputable def simulate_analog_frontend_enhanced (c : Config) (ns : Noises)
    (audio : List ℝ) : List ℝ :=
  let a1 := audio.map fun x =>
    x + 0.002 * c.intensity * Real.sign x * x ^ 2 + 0.001 * c.intensity
  if c.bit_depth ≤ 8 then
    a1.mapIdx fun i x => x + 0.0001 * c.intensity * ns.thermal i
  else a1

/-- Models `_apply_high_quality_lowpass` (same two-pole cascade as the
vintage low-pass). -/
noncomputable def apply_high_quality_lowpass (sr : ℕ) (cutoff : ℝ)
    (audio : List ℝ) : List ℝ :=
  let α := Real.exp (-(2 * Real.pi * cutoff / sr))
  lpGo α 0 (lpGo α 0 audio)

/-- Models `_apply_speech_emphasis_enhanced`: pole radius 0.95, configurable
gain with `b = (gain-1)·0.5`. -/
noncomputable def apply_speech_emphasis_enhanced (sr : ℕ) (gain : ℝ)
    (audio : List ℝ) : List ℝ :=
  if audio.length ≤ 2 then audio.map (· * gain)
  else match audio with
    | x0 :: x1 :: rest =>
      x0 :: x1 :: seGo 0.95 ((gain - 1) * 0.5) (Real.cos (2 * Real.pi * 3000 / sr))
        x0 x1 rest
    | l => l

/-- Models `_apply_frequency_response_shaping_enhanced`. -/
noncomputable def apply_frequency_response_shaping_enhanced (c : Config)
    (audio : List ℝ) : List ℝ :=
  if audio.length ≤ 1 then audio
  else
    let cutoff := max_frequency c * (1 - c.intensity * 0.3)
    let a1 := if c.intensity < 0.5 then
        apply_high_quality_lowpass c.sample_rate cutoff audio
      else VintageDSP.apply_vintage_lowpass c.sample_rate cutoff audio
    let a2 := VintageDSP.apply_vintage_highpass c.sample_rate
      (200 * (1 + c.intensity * 0.5)) a1
    if 0.3 < c.intensity then
      apply_speech_emphasis_enhanced c.sample_rate (1 + 0.2 * c.intensity) a2
    else a2

/-- Models the effective-bit-depth interpolation of
`_apply_enhanced_bit_crushing` (`int()` truncates the float). -/
noncomputable def effective_bits (c : Config) : ℕ :=
  if c.intensity < 1 then
    (truncR ((c.bit_depth : ℝ) +
      (((if 8 < c.bit_depth then 16 else c.bit_depth : ℕ) : ℝ) - (c.bit_depth : ℝ))
        * (1 - c.intensity))).toNat
  else c.bit_depth

/-- Models `_apply_enhanced_bit_crushing`: skip at high quality/low vintage,
quantise at the effective bit depth, optional intensity-scaled noise,
optional triangular dither, final clamp. -/
noncomputable def apply_enhanced_bit_crushing (c : Config) (ns : Noises)
    (audio : List ℝ) : List ℝ :=
  if 16 ≤ c.bit_depth ∧ c.intensity < 0.3 then audio
  else
    let eb := effective_bits c
    let q := audio.map (VintageDSP.bit_crush_quantize eb)
    let q2 := if c.quantization_noise ∧ 0 < c.intensity then
        q.mapIdx fun i x => x + (1 / 2 ^ eb * 0.5 * c.intensity) * ns.quant i
      else q
    let q3 := if 12 ≤ c.bit_depth ∧ c.intensity < 0.8 then
        q2.mapIdx fun i x => x + (1 / 2 ^ (eb + 1)) * ns.dither i
      else q2
    q3.map clip1

/-- Models `_apply_vintage_compression_enhanced`: intensity-scaled threshold,
ratio and attack/release coefficients. -/
noncomputable def apply_vintage_compression_enhanced (c : Config)
    (audio : List ℝ) : List ℝ :=
  if audio.length = 0 then audio
  else
    let θ := 0.8 - c.intensity * 0.2
    let ρ := 2 + c.intensity * 2
    let env := audio.map fun x => |x|
    let sm := VintageDSP.smooth_envelope_list (0.1 * (1 + c.intensity))
      (0.001 * (1 + c.intensity * 2)) env
    List.zipWith
      (fun x s => x * (if θ < s then θ / s * (1 + (s - θ) / ρ) else 1))
      audio sm

/-- Models `_apply_spectral_enhancement`: add a 1 kHz harmonic at gain 0.05
(no clamp). -/
noncomputable def apply_spectral_enhancement (c : Config) (audio : List ℝ) :
    List ℝ :=
  if audio.length ≤ 1 then audio
  else audio.mapIdx fun i x =>
    x + 0.05 * Real.sin (2 * Real.pi * (i : ℝ) / c.sample_rate * 1000)

/-- Models `_apply_harmonic_enrichment` (clamped even harmonics). -/
noncomputable def apply_harmonic_enrichment (audio : List ℝ) : List ℝ :=
  if audio.length = 0 then audio
  else (audio.map fun x => x + 0.01 * x ^ 2 * Real.sign x).map clip1

/-- Models `_apply_noise_reduction`: windowed-energy gate at threshold 0.01
with gate ratio 0.5. -/
noncomputable def apply_noise_reduction (audio : List ℝ) : List ℝ :=
  if audio.length ≤ 1 then audio
  else
    let w := min 512 (audio.length / 4)
    if w < 2 then audio
    else
      let energy := npConvolveSame (audio.map fun x => x ^ 2)
        (List.replicate w (1 / (w : ℝ)))
      List.zipWith (fun x e => x * (if e < 0.01 then 0.5 else 1)) audio energy

/-- Models `_apply_temporal_smoothing`: blend 30% of a 3-tap moving average
into the signal. -/
noncomputable def apply_temporal_smoothing (audio : List ℝ) : List ℝ :=
  if audio.length ≤ 1 then audio
  else
    let sm := npConvolveSame audio [1/3, 1/3, 1/3]
    List.zipWith (fun x s => (1 - 0.3) * x + 0.3 * s) audio sm

/-- Models `_apply_preset_processing` for the three named presets. -/
noncomputable def apply_preset_processing (c : Config) (ns : Noises)
    (audio : List ℝ) : List ℝ :=
  if c.preset = "dr_sbaitso" then
    VintageDSP.apply_sound_blaster_characteristics c.sample_rate c.bit_depth
      ns.sb audio
  else if c.preset = "dr_sbaitso_enhanced" then
    let a1 := VintageDSP.apply_sound_blaster_characteristics c.sample_rate
      c.bit_depth ns.sb audio
    if 12 ≤ c.bit_depth then apply_high_quality_lowpass c.sample_rate 10000 a1
    else a1
  else if c.preset = "subtle_vintage" then
    apply_high_quality_lowpass c.sample_rate 12000
      (apply_enhanced_bit_crushing c ns audio)
  else audio

/-- Models `_apply_vintage_processing_chain`: optional frontend and shaping,
bit crushing, compression, preset processing, then the intensity blend with
the chain's own clean input. -/
noncomputable def apply_vintage_processing_chain (c : Config) (ns : Noises)
    (audio : List ℝ) : List ℝ :=
  let v1 := if c.analog_simulation then simulate_analog_frontend_enhanced c ns audio
    else audio
  let v2 := if c.frequency_response_shaping then
      apply_frequency_response_shaping_enhanced c v1
    else v1
  let v3 := apply_enhanced_bit_crushing c ns v2
  let v4 := apply_vintage_compression_enhanced c v3
  let v5 := apply_preset_processing c ns v4
  if c.intensity < 1 then
    List.zipWith (fun v a => c.intensity * v + (1 - c.intensity) * a) v5 audio
  else v5

/-- Models `EnhancedVintageDSP.process`: optional pre-enhancements, the
vintage chain when enabled with positive intensity, optional
post-enhancements. -/
noncomputable def process (c : Config) (ns : Noises) (audio : List ℝ) : List ℝ :=
  if audio.length = 0 then audio
  else
    let p1 := if c.spectral_enhancement then apply_spectral_enhancement c audio
      else audio
    let p2 := if c.harmonic_enrichment then apply_harmonic_enrichment p1 else p1
    let p3 := if c.enabled ∧ 0 < c.intensity then
        apply_vintage_processing_chain c ns p2
      else p2
    let p4 := if c.noise_reduction then apply_noise_reduction p3 else p3
    if c.temporal_smoothing then apply_temporal_smoothing p4 else p4

end EnhancedVintageDSP

/-! ### Helper lemmas -/

theorem lookup_some_mem {α β : Type} [BEq α] [LawfulBEq α]
    (l : List (α × β)) (a : α) (b : β) (h : List.lookup a l = some b) :
    ∃ p, p ∈ l ∧ p.1 = a ∧ p.2 = b := by
  induction l with
  | nil => simp [List.lookup] at h
  | cons hd tl ih =>
    rw [List.lookup] at h
    cases hk : (a == hd.1) with
    | true =>
      simp only [hk] at h
      exact ⟨hd, List.mem_cons_self _ _, (eq_of_beq hk).symm, by simp_all⟩
    | false =>
      simp only [hk] at h
      obtain ⟨p, hp, hkey, hb⟩ := ih h
      exact ⟨p, List.mem_cons_of_mem _ hp, hkey, hb⟩

theorem getLast?_snoc_cons {α : Type} (x p : α) :
    ∀ l : List α, (x :: (l ++ [p])).getLast? = some p := by
  intro l
  induction l generalizing x with
  | nil => rfl
  | cons a t ih => rw [List.cons_append, List.getLast?_cons_cons]; exact ih a

theorem dp_append_pause (p : String)
    (hp : DiphoneSynthesizer.is_pause_marker p = true) :
    ∀ xs : List String,
      DiphoneSynthesizer.diphone_pairs (xs ++ [p]) =
        List.zipWith DiphoneSynthesizer.mk_pair_unit xs xs.tail
          ++ (match xs with
              | [] => []
              | x :: xs' => [(x :: xs').getLastD ""]) := by
  intro xs
  induction xs with
  | nil => rfl
  | cons a t ih =>
    cases t with
    | nil =>
      simp [DiphoneSynthesizer.diphone_pairs, DiphoneSynthesizer.mk_pair_unit, hp]
    | cons b rest =>
      show DiphoneSynthesizer.mk_pair_unit a b ::
          DiphoneSynthesizer.diphone_pairs ((b :: rest) ++ [p]) = _
      rw [ih]
      simp [List.zipWith]

/-! ### Claim C2 -/

/-- Claim C2, counterexample: the code maps the diphone `("AE","SIL")` to the
fixed duration `0.08·0.5 = 0.04 s`, not to half of AE's table entry
(`0.05 s`) as the claim states. -/
theorem c2_sil_duration_counterexample :
    DiphoneSynthesizer.get_diphone_duration "AE" "SIL" = 4/100
      ∧ (4/100 : ℚ) ≠ 5/100 := by
  constructor
  · rw [DiphoneSynthesizer.get_diphone_duration, if_pos (Or.inr rfl)]
    norm_num
  · norm_num

/-- Claim C2, amended: the duration depends only on the start phoneme's table
entry when neither side is `SIL` (`("AE","N")` → 0.10 s); any diphone
touching `SIL` gets the fixed duration 0.04 s (half the 0.08 s base),
independent of the start phoneme's entry, so `("AE","SIL")` → 0.04 s. -/
theorem c2_duration_amended :
    (∀ s e e', e ≠ "SIL" → e' ≠ "SIL" →
      DiphoneSynthesizer.get_diphone_duration s e
        = DiphoneSynthesizer.get_diphone_duration s e')
    ∧ DiphoneSynthesizer.get_diphone_duration "AE" "N" = 10/100
    ∧ (∀ s e, s = "SIL" ∨ e = "SIL" →
        DiphoneSynthesizer.get_diphone_duration s e = 4/100) := by
  refine ⟨?_, ?_, ?_⟩
  · intro s e e' he he'
    by_cases hs : s = "SIL"
    · simp [DiphoneSynthesizer.get_diphone_duration, hs]
    · simp [DiphoneSynthesizer.get_diphone_duration, hs, he, he']
  · rfl
  · intro s e h
    rw [DiphoneSynthesizer.get_diphone_duration, if_pos h]
    norm_num

/-- Witness for `c2_duration_amended` at the literal pairs of the claim. -/
theorem c2_duration_amended_witness :
    (("N" : String) ≠ "SIL" ∧ ("D" : String) ≠ "SIL"
      ∧ DiphoneSynthesizer.get_diphone_duration "AE" "N"
          = DiphoneSynthesizer.get_diphone_duration "AE" "D")
    ∧ ((("AE" : String) = "SIL" ∨ ("SIL" : String) = "SIL")
      ∧ DiphoneSynthesizer.get_diphone_duration "AE" "SIL" = 4/100) :=
  ⟨⟨by decide, by decide,
    c2_duration_amended.1 "AE" "N" "D" (by decide) (by decide)⟩,
   ⟨Or.inr rfl, c2_duration_amended.2.2 "AE" "SIL" (Or.inr rfl)⟩⟩

/-! ### Claim C6 -/

/-- Claim C6, counterexample: for the adjacent pair `("AE", "<PAUSE_SHORT>")`
the sequencer emits the non-pause phoneme `"AE"` as its own unit; the pause
marker itself is never emitted, contradicting the claim that the pause
marker is emitted for every pause-adjacent pair. -/
theorem c6_pause_pair_counterexample :
    DiphoneSynthesizer.phonemes_to_diphones ["AE", "<PAUSE_SHORT>"]
        = ["SIL-AE", "AE"]
      ∧ "<PAUSE_SHORT>" ∉
          DiphoneSynthesizer.phonemes_to_diphones ["AE", "<PAUSE_SHORT>"] := by
  decide

/-- Claim C6, amended: for each adjacent pair `(p[i], p[i+1])` the sequencer
emits the CURRENT element `p[i]` as its own unit when either element is a
pause marker (so the pause is emitted only when it is the left element, and
a non-pause left element is emitted alone when only the right element is a
pause); otherwise it emits the diphone `p[i]-p[i+1]`. -/
theorem c6_pairs_amended :
    (∀ phonemes : List String,
      DiphoneSynthesizer.diphone_pairs phonemes
        = List.zipWith DiphoneSynthesizer.mk_pair_unit phonemes phonemes.tail)
    ∧ (∀ a b, DiphoneSynthesizer.mk_pair_unit a b
        = if DiphoneSynthesizer.is_pause_marker a
            || DiphoneSynthesizer.is_pause_marker b then a
          else a ++ "-" ++ b) := by
  constructor
  · intro phonemes
    induction phonemes with
    | nil => rfl
    | cons a t ih =>
      cases t with
      | nil => rfl
      | cons b rest =>
        show DiphoneSynthesizer.mk_pair_unit a b ::
            DiphoneSynthesizer.diphone_pairs (b :: rest) = _
        rw [ih]
        simp [List.zipWith]
  · intro a b
    rfl

/-! ### Claim C9 -/

/-- Claim C9: the sequencer maps `[]` to `[]`, synthesis of `[]` is the empty
buffer, and a single non-pause phoneme `p` yields exactly the two diphones
`SIL-p` and `p-SIL`. -/
theorem c9_empty_and_single :
    DiphoneSynthesizer.phonemes_to_diphones [] = []
    ∧ (∀ (sr : ℕ) (g : ℕ → ℕ → ℝ), DiphoneSynthesizer.synthesize sr g [] = [])
    ∧ (∀ p, DiphoneSynthesizer.is_pause_marker p = false →
        DiphoneSynthesizer.phonemes_to_diphones [p]
          = ["SIL-" ++ p, p ++ "-SIL"]) := by
  refine ⟨rfl, ?_, ?_⟩
  · intro sr g
    simp [DiphoneSynthesizer.synthesize]
  · intro p hp
    simp [DiphoneSynthesizer.phonemes_to_diphones,
      DiphoneSynthesizer.diphone_pairs, hp]

/-- Witness for `c9_empty_and_single` at the non-pause phoneme `"AE"`. -/
theorem c9_empty_and_single_witness :
    DiphoneSynthesizer.is_pause_marker "AE" = false
    ∧ DiphoneSynthesizer.phonemes_to_diphones ["AE"]
        = ["SIL-" ++ "AE", "AE" ++ "-SIL"] :=
  ⟨by decide, c9_empty_and_single.2.2 "AE" (by decide)⟩

/-! ### Claim C10 -/

/-- Claim C10: a trailing pause marker is never emitted by the sequencer —
the unit list for `xs ++ [pause]` is a function of `xs` alone (the right-hand
side below never mentions the pause) — and synthesizing a lone pause marker
yields the empty buffer rather than a buffer of silence. -/
theorem c10_trailing_pause :
    (∀ (xs : List String) (p : String),
      DiphoneSynthesizer.is_pause_marker p = true →
      DiphoneSynthesizer.phonemes_to_diphones (xs ++ [p])
        = (match xs with
           | [] => []
           | x :: xs' =>
             (if DiphoneSynthesizer.is_pause_marker x then []
              else ["SIL-" ++ x])
             ++ List.zipWith DiphoneSynthesizer.mk_pair_unit (x :: xs') xs'
             ++ [(x :: xs').getLastD ""]))
    ∧ (∀ (sr : ℕ) (g : ℕ → ℕ → ℝ) (p : String),
        DiphoneSynthesizer.is_pause_marker p = true →
        DiphoneSynthesizer.synthesize sr g [p] = []) := by
  constructor
  · intro xs p hp
    cases xs with
    | nil =>
      simp [DiphoneSynthesizer.phonemes_to_diphones,
        DiphoneSynthesizer.diphone_pairs, hp]
    | cons x xs' =>
      have hlast : (((x :: xs') ++ [p]) : List String).getLast? = some p := by
        rw [List.cons_append]
        exact getLast?_snoc_cons x p xs'
      rw [DiphoneSynthesizer.phonemes_to_diphones.eq_def]
      rw [dp_append_pause p hp (x :: xs')]
      rw [hlast]
      simp only [List.cons_append, hp]
      simp
  · intro sr g p hp
    have hd : DiphoneSynthesizer.phonemes_to_diphones [p] = [] := by
      simp [DiphoneSynthesizer.phonemes_to_diphones,
        DiphoneSynthesizer.diphone_pairs, hp]
    unfold DiphoneSynthesizer.synthesize
    rw [if_neg (by simp)]
    simp [hd, DiphoneSynthesizer.apply_vintage_processing]

/-- Witness for `c10_trailing_pause` at `xs = ["AE"]`, `p = "<PAUSE_SHORT>"`. -/
theorem c10_trailing_pause_witness :
    DiphoneSynthesizer.is_pause_marker "<PAUSE_SHORT>" = true
    ∧ DiphoneSynthesizer.phonemes_to_diphones (["AE"] ++ ["<PAUSE_SHORT>"])
        = (if DiphoneSynthesizer.is_pause_marker "AE" then []
           else ["SIL-" ++ "AE"])
          ++ List.zipWith DiphoneSynthesizer.mk_pair_unit ["AE"] []
          ++ [(["AE"] : List String).getLastD ""]
    ∧ DiphoneSynthesizer.synthesize 22050 (fun _ _ => 0) ["<PAUSE_SHORT>"] = [] :=
  ⟨by decide, c10_trailing_pause.1 ["AE"] "<PAUSE_SHORT>" (by decide),
   c10_trailing_pause.2 22050 (fun _ _ => 0) "<PAUSE_SHORT>" (by decide)⟩

/-! ### Claim C8 -/

theorem getD_map_clip1_bounds (l : List ℝ) (i : ℕ) :
    -1 ≤ (l.map clip1).getD i 0 ∧ (l.map clip1).getD i 0 ≤ 1 := by
  rw [List.getD_eq_getElem?_getD, List.getElem?_map]
  cases h : l[i]? with
  | none => simp
  | some x =>
    simp only [Option.map_some', Option.getD_some, clip1]
    constructor
    · exact le_max_left _ _
    · exact max_le (by norm_num) (min_le_left _ _)

/-- Claim C8, counterexample: the analog-frontend stage does NOT return a
length-1 buffer unchanged — it adds the DC offset, mapping `[0]` to
`[0.001]`. -/
theorem c8_frontend_counterexample :
    VintageDSP.simulate_analog_frontend [0] = [0.001]
      ∧ VintageDSP.simulate_analog_frontend [0] ≠ [0] := by
  have h : VintageDSP.simulate_analog_frontend [0] = [0.001] := by
    simp [VintageDSP.simulate_analog_frontend, Real.sign_zero]
  refine ⟨h, ?_⟩
  rw [h]
  intro hc
  have : (0.001 : ℝ) = 0 := by injection hc
  norm_num at this

/-- Claim C8, amended: every stage of the baseline chain returns the empty
buffer unchanged, and the anti-aliasing, sample-rate-artifact and
frequency-response-shaping stages also return length-1 buffers unchanged;
the analog-frontend, bit-crushing, compression and output stages may modify
a length-1 buffer. -/
theorem c8_stages_amended :
    (∀ (sr bits : ℕ) (u : ℕ → ℝ),
      VintageDSP.simulate_analog_frontend ([] : List ℝ) = []
      ∧ VintageDSP.apply_vintage_antialiasing sr [] = []
      ∧ VintageDSP.apply_bit_crushing bits u [] = []
      ∧ VintageDSP.apply_sample_rate_artifacts sr [] = []
      ∧ VintageDSP.apply_frequency_response_shaping sr [] = []
      ∧ VintageDSP.apply_vintage_compression [] = []
      ∧ VintageDSP.apply_output_stage_processing sr [] = [])
    ∧ (∀ (sr : ℕ) (x : ℝ),
      VintageDSP.apply_vintage_antialiasing sr [x] = [x]
      ∧ VintageDSP.apply_sample_rate_artifacts sr [x] = [x]
      ∧ VintageDSP.apply_frequency_response_shaping sr [x] = [x]) := by
  constructor
  · intro sr bits u
    refine ⟨rfl, rfl, ?_, rfl, rfl, rfl, ?_⟩
    · rw [VintageDSP.apply_bit_crushing]
      split
      · rfl
      · simp
    · simp [VintageDSP.apply_output_stage_processing]
  · intro sr x
    refine ⟨?_, ?_, ?_⟩
    · simp [VintageDSP.apply_vintage_antialiasing]
    · simp [VintageDSP.apply_sample_rate_artifacts]
    · simp [VintageDSP.apply_frequency_response_shaping]

/-! ### Claim C3 -/

theorem bit_crush_quantize_half :
    VintageDSP.bit_crush_quantize 8 (1/2) = 64/127 := by
  rw [VintageDSP.bit_crush_quantize]
  have h127 : ((2 : ℝ) ^ (8 - 1) - 1) = 127 := by norm_num
  rw [h127]
  have harg : (1 / 2 : ℝ) * 127 = 127 / 2 := by norm_num
  rw [harg]
  have hfl : ⌊(127 / 2 : ℝ)⌋ = 63 := by
    rw [Int.floor_eq_iff]
    norm_num
  have hfract : Int.fract (127 / 2 : ℝ) = 1 / 2 := by
    rw [Int.fract, hfl]
    norm_num
  rw [npRound, if_pos hfract, hfl]
  rw [if_neg (by decide)]
  norm_num

/-- Claim C3, counterexample: `np.round` rounds half to even, so the input
0.5 at bit depth 8 quantizes (pre-noise) to `round(63.5)/127 = 64/127 ≈
0.5039`, not to the claimed 0.4961. -/
theorem c3_quantize_counterexample :
    VintageDSP.bit_crush_quantize 8 (1/2) = 64/127
      ∧ (64/127 : ℝ) ≠ 4961/10000 := by
  exact ⟨bit_crush_quantize_half, by norm_num⟩

/-- Claim C3, amended: with `bit_depth = 8` (`maxLevel = 127`), the input
sample 0.5 quantizes, before any noise or dither is added, to
`round(0.5·127)/127 = 64/127 ≈ 0.5039` (numpy rounds the tie 63.5 to the
even integer 64). -/
theorem c3_quantize_amended :
    VintageDSP.bit_crush_quantize 8 (1/2) = 64/127
      ∧ |(64/127 : ℝ) - 5039/10000| < 1/1000 := by
  exact ⟨bit_crush_quantize_half, by rw [abs_sub_lt_iff]; constructor <;> norm_num⟩

/-! ### Claim C5 -/

/-- Claim C5: with `bit_depth = 16` and `vintage_intensity = 0` (and the
optional enhancement stages at their disabled defaults) the configurable
chain skips every stage and returns the input buffer exactly, hence within
the claimed 1e-3 tolerance per sample. -/
theorem c5_identity_at_zero_intensity :
    ∀ (sr : ℕ) (en : Bool) (pre : String) (qn asim fs : Bool)
      (ns : EnhancedVintageDSP.Noises) (audio : List ℝ),
      EnhancedVintageDSP.process
          ⟨sr, 16, 0, en, pre, qn, asim, fs, false, false, false, false⟩ ns audio
        = audio
      ∧ ∀ i : ℕ,
        |(EnhancedVintageDSP.process
            ⟨sr, 16, 0, en, pre, qn, asim, fs, false, false, false, false⟩ ns
            audio).getD i 0 - audio.getD i 0| ≤ 1/1000 := by
  intro sr en pre qn asim fs ns audio
  have heq : EnhancedVintageDSP.process
      ⟨sr, 16, 0, en, pre, qn, asim, fs, false, false, false, false⟩ ns audio
      = audio := by
    rw [EnhancedVintageDSP.process]
    simp [lt_irrefl]
  refine ⟨heq, ?_⟩
  intro i
  rw [heq]
  simp

/-! ### Claim C1 -/

/-- Claim C1, counterexample: with the valid configuration
`(22050 Hz, 8-bit, intensity 0, spectral enhancement enabled)` the
intensity-scalable chain maps the in-range buffer `[1, 1]` to a buffer whose
second sample exceeds 1.0 — the spectral-enhancement stage adds a sine term
with no clamp. -/
theorem c1_enhanced_exceeds_range :
    1 < (EnhancedVintageDSP.process
        ⟨22050, 8, 0, true, "dr_sbaitso", true, true, true, true, false,
          false, false⟩
        ⟨fun _ => 0, fun _ => 0, fun _ => 0, fun _ => 0⟩ [1, 1]).getD 1 0 := by
  have hproc : EnhancedVintageDSP.process
      ⟨22050, 8, 0, true, "dr_sbaitso", true, true, true, true, false,
        false, false⟩
      ⟨fun _ => 0, fun _ => 0, fun _ => 0, fun _ => 0⟩ [1, 1]
      = EnhancedVintageDSP.apply_spectral_enhancement
        ⟨22050, 8, 0, true, "dr_sbaitso", true, true, true, true, false,
          false, false⟩ [1, 1] := by
    rw [EnhancedVintageDSP.process]
    simp [lt_irrefl]
  rw [hproc]
  rw [EnhancedVintageDSP.apply_spectral_enhancement]
  norm_num
  have hsin : 0 < Real.sin (2 * Real.pi / 22050 * 1000) := by
    apply Real.sin_pos_of_pos_of_lt_pi
    · positivity
    · nlinarith [Real.pi_pos]
  nlinarith [hsin]

/-- Claim C1, amended: every sample returned by the baseline chain
`VintageDSP.process` lies in `[-1, 1]` for every sample rate, bit depth,
noise realisation and input buffer (the output stage ends in a hard clamp);
the intensity-scalable `EnhancedVintageDSP.process` does not guarantee the
bound (see the counterexample). -/
theorem c1_vintage_process_bounded :
    ∀ (sr bits : ℕ) (u : ℕ → ℝ) (audio : List ℝ) (i : ℕ),
      -1 ≤ (VintageDSP.process sr bits u audio).getD i 0
      ∧ (VintageDSP.process sr bits u audio).getD i 0 ≤ 1 := by
  intro sr bits u audio i
  rw [VintageDSP.process.eq_def]
  split
  · next h =>
    have haudio : audio = [] := List.length_eq_zero.mp h
    subst haudio
    simp [List.getD]
  · simp only [VintageDSP.apply_output_stage_processing]
    exact getD_map_clip1_bounds _ i

/-! ### Claim C7 -/

theorem ffGo_length (sr : ℕ) (bw : ℝ) :
    ∀ (xs fs aas : List ℝ) (i : ℕ) (y2 y1 : ℝ),
      (DiphoneSynthesizer.ffGo sr bw i y2 y1 xs fs aas).length
        = min xs.length (min fs.length aas.length) := by
  intro xs
  induction xs with
  | nil => intro fs aas i y2 y1; simp [DiphoneSynthesizer.ffGo]
  | cons x xs' ih =>
    intro fs aas i y2 y1
    cases fs with
    | nil => simp [DiphoneSynthesizer.ffGo]
    | cons f fs' =>
      cases aas with
      | nil => simp [DiphoneSynthesizer.ffGo]
      | cons a aas' =>
        simp only [DiphoneSynthesizer.ffGo, List.length_cons, ih]
        omega

theorem ffGo_getD (sr : ℕ) (bw : ℝ) :
    ∀ (xs fs aas : List ℝ) (i k : ℕ) (y2 y1 : ℝ),
      k < (DiphoneSynthesizer.ffGo sr bw i y2 y1 xs fs aas).length →
      (DiphoneSynthesizer.ffGo sr bw i y2 y1 xs fs aas).getD k 0 =
        if 0 < fs.getD k 0 then
          (if 2 ≤ i + k then
            aas.getD k 0 * xs.getD k 0
              + 2 * (1 - bw / sr) * Real.cos (2 * Real.pi * fs.getD k 0 / sr)
                * (if k = 0 then y1
                   else (DiphoneSynthesizer.ffGo sr bw i y2 y1 xs fs aas).getD (k - 1) 0)
              - (1 - bw / sr) * (1 - bw / sr)
                * (if k = 0 then y2
                   else if k = 1 then y1
                   else (DiphoneSynthesizer.ffGo sr bw i y2 y1 xs fs aas).getD (k - 2) 0)
          else aas.getD k 0 * xs.getD k 0)
        else 0 := by
  intro xs
  induction xs with
  | nil => intro fs aas i k y2 y1 hk; simp [DiphoneSynthesizer.ffGo] at hk
  | cons x xs' ih =>
    intro fs aas i k y2 y1 hk
    cases fs with
    | nil => simp [DiphoneSynthesizer.ffGo] at hk
    | cons f fs' =>
      cases aas with
      | nil => simp [DiphoneSynthesizer.ffGo] at hk
      | cons a aas' =>
        cases k with
        | zero =>
          simp [DiphoneSynthesizer.ffGo]
        | succ k' =>
          have hk' : k' < (DiphoneSynthesizer.ffGo sr bw (i + 1) y1
              (if 0 < f then
                (if 2 ≤ i then
                  a * x + 2 * (1 - bw / sr) * Real.cos (2 * Real.pi * f / sr) * y1
                    - (1 - bw / sr) * (1 - bw / sr) * y2
                else a * x)
              else 0) xs' fs' aas').length := by
            have := hk
            simp only [DiphoneSynthesizer.ffGo, List.length_cons] at this
            rw [ffGo_length] at this ⊢
            omega
          have hstep := ih fs' aas' (i + 1) k' y1
            (if 0 < f then
              (if 2 ≤ i then
                a * x + 2 * (1 - bw / sr) * Real.cos (2 * Real.pi * f / sr) * y1
                  - (1 - bw / sr) * (1 - bw / sr) * y2
              else a * x)
            else 0) hk'
          have hadd : i + (k' + 1) = (i + 1) + k' := by omega
          cases k' with
          | zero =>
            simp only [DiphoneSynthesizer.ffGo, List.getD_cons_succ,
              List.getD_cons_zero] at hstep ⊢
            rw [hstep, hadd]
            simp
          | succ k'' =>
            cases k'' with
            | zero =>
              simp only [DiphoneSynthesizer.ffGo, List.getD_cons_succ,
                List.getD_cons_zero] at hstep ⊢
              rw [hstep, hadd]
              simp
            | succ j =>
              simp only [DiphoneSynthesizer.ffGo, List.getD_cons_succ,
                List.getD_cons_zero] at hstep ⊢
              rw [hstep, hadd]
              simp

/-- Claim C7, amended: within each diphone the three formant filters start
from zero state (`apply_formant_filter` is a pure per-segment function) and
each output sample obeys: when the instantaneous interpolated frequency is
positive, `y[n] = amp·x[n] + 2r·cos(ω)·y[n-1] - r²·y[n-2]` for `n ≥ 2` and
`y[n] = amp·x[n]` for the first two samples; but when the instantaneous
frequency is NOT positive (the `SIL` end of a contour) the sample is 0 and
the recurrence is skipped. -/
theorem c7_filter_amended :
    ∀ (sr : ℕ) (bw : ℝ) (source freq amp : List ℝ),
      freq.length = source.length → amp.length = source.length →
      ∀ i : ℕ,
        (DiphoneSynthesizer.apply_formant_filter sr source freq amp bw).getD i 0 =
          if 0 < freq.getD i 0 then
            (if 2 ≤ i then
              amp.getD i 0 * source.getD i 0
                + 2 * (1 - bw / sr) * Real.cos (2 * Real.pi * freq.getD i 0 / sr)
                  * (DiphoneSynthesizer.apply_formant_filter sr source freq amp
                      bw).getD (i - 1) 0
                - (1 - bw / sr) * (1 - bw / sr)
                  * (DiphoneSynthesizer.apply_formant_filter sr source freq amp
                      bw).getD (i - 2) 0
            else amp.getD i 0 * source.getD i 0)
          else 0 := by
  intro sr bw source freq amp hf ha i
  rw [DiphoneSynthesizer.apply_formant_filter]
  have hlen : (DiphoneSynthesizer.ffGo sr bw 0 0 0 source freq amp).length
      = source.length := by
    rw [ffGo_length, hf, ha]
    omega
  by_cases hi : i < source.length
  · rw [ffGo_getD sr bw source freq amp 0 i 0 0 (by omega)]
    by_cases hfpos : 0 < freq.getD i 0
    · rw [if_pos hfpos, if_pos hfpos]
      by_cases h2 : 2 ≤ i
      · rw [if_pos (by omega : 2 ≤ 0 + i), if_pos h2]
        rw [if_neg (by omega : ¬ i = 0), if_neg (by omega : ¬ i = 0),
          if_neg (by omega : ¬ i = 1)]
      · rw [if_neg (by omega : ¬ 2 ≤ 0 + i), if_neg h2]
    · rw [if_neg hfpos, if_neg hfpos]
  · have h1 : (DiphoneSynthesizer.ffGo sr bw 0 0 0 source freq amp).getD i 0 = 0 :=
      List.getD_eq_default _ _ (by omega)
    have h2 : freq.getD i 0 = 0 := List.getD_eq_default _ _ (by omega)
    rw [h1, h2, if_neg (lt_irrefl 0)]

/-- Witness for `c7_filter_amended` at the one-sample segment
`source = freq = amp = [1]`, `i = 0`. -/
theorem c7_filter_amended_witness :
    (([1] : List ℝ).length = ([1] : List ℝ).length
      ∧ ([1] : List ℝ).length = ([1] : List ℝ).length)
    ∧ (DiphoneSynthesizer.apply_formant_filter 22050 [1] [1] [1] 100).getD 0 0 =
        (if 0 < (([1] : List ℝ)).getD 0 0 then
          (if 2 ≤ 0 then
            (([1] : List ℝ)).getD 0 0 * (([1] : List ℝ)).getD 0 0
              + 2 * (1 - 100 / 22050)
                * Real.cos (2 * Real.pi * (([1] : List ℝ)).getD 0 0 / 22050)
                * (DiphoneSynthesizer.apply_formant_filter 22050 [1] [1] [1]
                    100).getD (0 - 1) 0
              - (1 - 100 / 22050) * (1 - 100 / 22050)
                * (DiphoneSynthesizer.apply_formant_filter 22050 [1] [1] [1]
                    100).getD (0 - 2) 0
          else (([1] : List ℝ)).getD 0 0 * (([1] : List ℝ)).getD 0 0)
        else 0) :=
  ⟨⟨rfl, rfl⟩, c7_filter_amended 22050 100 [1] [1] [1] rfl rfl 0⟩

theorem linspace_three (a b : ℝ) : linspace a b 3 = [a, a + (b - a) / 2, b] := by
  rw [linspace, show List.range 3 = [0, 1, 2] from rfl]
  simp only [List.map_cons, List.map_nil]
  norm_num

theorem linspaceEF_three (a b : ℝ) :
    linspaceEF a b 3 = [a, a + (b - a) / 3, a + (b - a) * 2 / 3] := by
  rw [linspaceEF, show List.range 3 = [0, 1, 2] from rfl]
  simp only [List.map_cons, List.map_nil]
  norm_num

theorem pulse_train_ae_sil_80 :
    DiphoneSynthesizer.generate_pulse_train 80 (linspaceEF 0 (1/25) 3)
      (linspace 120 0 3) (linspace 1 0 3) = [0, -(2/5), 0] := by
  have ht : linspaceEF 0 (1/25) 3 = [0, 1/75, 2/75] := by
    rw [linspaceEF_three]
    norm_num
  have hf0 : linspace 120 0 3 = [120, 60, 0] := by
    rw [linspace_three]
    norm_num
  have hv : linspace 1 0 3 = [1, 1/2, 0] := by
    rw [linspace_three]
    norm_num
  rw [ht, hf0, hv, DiphoneSynthesizer.generate_pulse_train]
  have h2pi : (2 : ℝ) * Real.pi ≠ 0 := by positivity
  have hc : ∀ c : ℝ, c * (2 * Real.pi) / (2 * Real.pi) = c := fun c =>
    mul_div_cancel_right₀ c h2pi
  simp only [cumsum, List.scanl, List.dropLast, List.map_cons, List.map_nil,
    List.tail, List.zipWith, List.length_cons, List.length_nil,
    List.getD_cons_zero, List.getD_cons_succ]
  norm_num [hc]

theorem filter_ae_sil_80 :
    DiphoneSynthesizer.apply_formant_filter 80 [0, -(2/5), 0] [660, 330, 0]
      [1, 1/2, 0] 100 = [0, -(1/5), 0] := by
  rw [DiphoneSynthesizer.apply_formant_filter]
  norm_num [DiphoneSynthesizer.ffGo]

/-- Claim C7, counterexample: for the diphone `AE-SIL` (a 3-sample segment at
sample rate 80: `int(0.04·80) = 3`), the F1 filter's last output sample is 0
(the code skips the recurrence because the interpolated frequency reaches 0
at the `SIL` end), while the claimed recurrence
`y[n] = amp·x[n] + 2r·cos(ω)·y[n-1] - r²·y[n-2]` evaluated at that sample's
instantaneous frequency/amplitude gives `2·(1-100/80)·cos(0)·(-1/5) = 1/10`.
The filter inputs below are exactly those built by `formant_synthesis` for
`AE-SIL`: pulse-train source (AE is voiced), F1 contour
`linspace 660 0 3`, A1 contour `linspace 1 0 3`, bandwidth 100. -/
theorem c7_filter_counterexample :
    DiphoneSynthesizer.split_diphone_name "AE-SIL" = ("AE", "SIL")
    ∧ DiphoneSynthesizer.natSamples 80
        (DiphoneSynthesizer.get_diphone_duration "AE" "SIL") = 3
    ∧ DiphoneSynthesizer.is_voiced_phoneme "AE" = true
    ∧ DiphoneSynthesizer.is_voiced_phoneme "SIL" = false
    ∧ ¬ ((DiphoneSynthesizer.apply_formant_filter 80
            (DiphoneSynthesizer.generate_pulse_train 80
              (linspaceEF 0
                ((DiphoneSynthesizer.get_diphone_duration "AE" "SIL" : ℚ) : ℝ) 3)
              (linspace 120 0 3) (linspace 1 0 3))
            (linspace 660 0 3) (linspace 1 0 3) 100).getD 2 0
          = (linspace 1 0 3).getD 2 0
              * (DiphoneSynthesizer.generate_pulse_train 80
                  (linspaceEF 0
                    ((DiphoneSynthesizer.get_diphone_duration "AE" "SIL" : ℚ) : ℝ) 3)
                  (linspace 120 0 3) (linspace 1 0 3)).getD 2 0
            + 2 * (1 - 100 / 80)
              * Real.cos (2 * Real.pi * (linspace 660 0 3).getD 2 0 / 80)
              * (DiphoneSynthesizer.apply_formant_filter 80
                  (DiphoneSynthesizer.generate_pulse_train 80
                    (linspaceEF 0
                      ((DiphoneSynthesizer.get_diphone_duration "AE" "SIL" : ℚ) : ℝ) 3)
                    (linspace 120 0 3) (linspace 1 0 3))
                  (linspace 660 0 3) (linspace 1 0 3) 100).getD 1 0
            - (1 - 100 / 80) * (1 - 100 / 80)
              * (DiphoneSynthesizer.apply_formant_filter 80
                  (DiphoneSynthesizer.generate_pulse_train 80
                    (linspaceEF 0
                      ((DiphoneSynthesizer.get_diphone_duration "AE" "SIL" : ℚ) : ℝ) 3)
                    (linspace 120 0 3) (linspace 1 0 3))
                  (linspace 660 0 3) (linspace 1 0 3) 100).getD 0 0) := by
  have hdur : DiphoneSynthesizer.get_diphone_duration "AE" "SIL" = 4/100 := by
    rw [DiphoneSynthesizer.get_diphone_duration, if_pos (Or.inr rfl)]
    norm_num
  have hdurR : ((DiphoneSynthesizer.get_diphone_duration "AE" "SIL" : ℚ) : ℝ)
      = 1/25 := by
    rw [hdur]
    norm_num
  have hfreq : linspace 660 0 3 = [660, 330, 0] := by
    rw [linspace_three]
    norm_num
  have hamp : linspace 1 0 3 = [1, 1/2, 0] := by
    rw [linspace_three]
    norm_num
  refine ⟨by decide, ?_, by decide, by decide, ?_⟩
  · rw [DiphoneSynthesizer.natSamples, hdur, truncQ]
    norm_num
    rfl
  · rw [hdurR, pulse_train_ae_sil_80, hfreq, hamp, filter_ae_sil_80]
    simp only [List.getD_cons_succ, List.getD_cons_zero]
    rw [show 2 * Real.pi * (0 : ℝ) / 80 = 0 by ring, Real.cos_zero]
    norm_num

/-! ### Claim C4 -/

theorem linspace_length (a b : ℝ) (n : ℕ) : (linspace a b n).length = n := by
  simp [linspace]

theorem linspaceEF_length (a b : ℝ) (n : ℕ) : (linspaceEF a b n).length = n := by
  simp [linspaceEF]

theorem cumsum_length (l : List ℝ) : (cumsum l).length = l.length := by
  simp [cumsum, List.length_scanl]

theorem hpGo_length (α : ℝ) : ∀ (l : List ℝ) (py px : ℝ),
    (hpGo α py px l).length = l.length := by
  intro l
  induction l with
  | nil => intro py px; rfl
  | cons x rest ih => intro py px; simp [hpGo, ih]

theorem apply_highpass_filter_length (sr : ℕ) (signal : List ℝ) (c : ℝ) :
    (DiphoneSynthesizer.apply_highpass_filter sr signal c).length
      = signal.length := by
  rw [DiphoneSynthesizer.apply_highpass_filter.eq_def]
  split
  · rfl
  · split
    · rfl
    · simp [hpGo_length]

theorem apply_burst_shaping_length (noise : List ℝ) :
    (DiphoneSynthesizer.apply_burst_shaping noise).length = noise.length := by
  rw [DiphoneSynthesizer.apply_burst_shaping]
  simp only [List.length_zipWith, List.length_append, List.length_map,
    List.length_replicate, linspace_length]
  omega

theorem generate_noise_length (sr : ℕ) (g : ℕ → ℝ) (n : ℕ) (sp ep : String) :
    (DiphoneSynthesizer.generate_noise sr g n sp ep).length = n := by
  rw [DiphoneSynthesizer.generate_noise]
  split
  · rw [apply_highpass_filter_length]; simp
  · split
    · rw [apply_burst_shaping_length]; simp
    · simp

theorem generate_pulse_train_length (sr : ℕ) (t f0 voicing : List ℝ)
    (h0 : 1 ≤ f0.length) (hv : voicing.length = f0.length) :
    (DiphoneSynthesizer.generate_pulse_train sr t f0 voicing).length
      = f0.length := by
  rw [DiphoneSynthesizer.generate_pulse_train]
  simp only [List.length_zipWith, List.length_cons, List.length_map,
    cumsum_length, List.length_dropLast, hv]
  omega

theorem generate_amplitude_envelope_length (n : ℕ) (sp ep : String) :
    (DiphoneSynthesizer.generate_amplitude_envelope n sp ep).length = n := by
  rw [DiphoneSynthesizer.generate_amplitude_envelope]
  split
  · simp
  · simp only [List.length_append, List.length_replicate, linspace_length]
    omega

theorem generate_pulse_train_lin_length (sr : ℕ) (t : List ℝ) (a b c d : ℝ)
    (h1 : 1 ≤ t.length) :
    (DiphoneSynthesizer.generate_pulse_train sr t (linspace a b t.length)
      (linspace c d t.length)).length = t.length := by
  rw [generate_pulse_train_length] <;> simp [linspace_length, h1]

theorem apply_formant_filter_length (sr : ℕ) (s f a : List ℝ) (bw : ℝ) :
    (DiphoneSynthesizer.apply_formant_filter sr s f a bw).length
      = min s.length (min f.length a.length) := by
  rw [DiphoneSynthesizer.apply_formant_filter, ffGo_length]

theorem formant_synthesis_length (sr : ℕ) (g : ℕ → ℝ) (t : List ℝ)
    (sf ef : DiphoneSynthesizer.Formants) (sp ep : String) :
    (DiphoneSynthesizer.formant_synthesis sr g t sf ef sp ep).length
      = t.length := by
  rw [DiphoneSynthesizer.formant_synthesis.eq_def]
  split
  · next h0 => rw [h0]; rfl
  · next h0 =>
    have h1 : 1 ≤ t.length := by omega
    simp only [apply_ite List.length, List.length_map, List.length_zipWith,
      apply_formant_filter_length, linspace_length,
      generate_amplitude_envelope_length, generate_noise_length,
      generate_pulse_train_lin_length sr t _ _ _ _ h1, ite_self]
    omega

theorem synthesize_diphone_length (sr : ℕ) (g : ℕ → ℝ) (d : String) :
    (DiphoneSynthesizer.synthesize_diphone sr g d).length
      = DiphoneSynthesizer.natSamples sr
          (DiphoneSynthesizer.get_diphone_duration
            (DiphoneSynthesizer.split_diphone_name d).1
            (DiphoneSynthesizer.split_diphone_name d).2) := by
  rw [DiphoneSynthesizer.synthesize_diphone]
  split
  · next h => rw [h]; rfl
  · rw [formant_synthesis_length, linspaceEF_length]

theorem get_pause_duration_lb (m : String) :
    1/5 ≤ DiphoneSynthesizer.get_pause_duration m := by
  rw [DiphoneSynthesizer.get_pause_duration]
  split
  · norm_num
  · split
    · norm_num
    · split
      · norm_num
      · norm_num

theorem phoneme_durations_lb :
    ∀ p ∈ DiphoneSynthesizer.phoneme_durations, p.1 ≠ "SIL" → 1/25 ≤ p.2 := by
  intro p hp
  fin_cases hp <;> simp <;> norm_num

theorem get_diphone_duration_lb (s e : String) :
    1/25 ≤ DiphoneSynthesizer.get_diphone_duration s e := by
  rw [DiphoneSynthesizer.get_diphone_duration]
  split
  · norm_num
  · cases hl : lookupPairs DiphoneSynthesizer.phoneme_durations s with
    | none => norm_num
    | some d =>
      next hns =>
      obtain ⟨p, hp, hkey, hv⟩ := lookup_some_mem _ _ _ hl
      rw [← hv]
      refine phoneme_durations_lb p hp ?_
      rw [hkey]
      intro hcon
      exact hns (Or.inl hcon)

theorem natSamples_lb (sr : ℕ) (q : ℚ) (hq : 1/25 ≤ q) (hsr : 8000 ≤ sr) :
    320 ≤ DiphoneSynthesizer.natSamples sr q := by
  rw [DiphoneSynthesizer.natSamples, truncQ]
  have hqs : (320 : ℚ) ≤ q * sr := by
    calc (320 : ℚ) = (1/25) * 8000 := by norm_num
    _ ≤ q * sr := by
      apply mul_le_mul hq _ (by norm_num) (le_trans (by norm_num) hq)
      exact_mod_cast Nat.cast_le.mpr hsr
  rw [if_neg (by linarith)]
  have hfl : (320 : ℤ) ≤ ⌊q * (sr : ℚ)⌋ := by
    rw [Int.le_floor]
    exact_mod_cast hqs
  omega

theorem unit_samples_lb (sr : ℕ) (u : String) (hsr : 8000 ≤ sr) :
    320 ≤ DiphoneSynthesizer.unit_samples sr u := by
  rw [DiphoneSynthesizer.unit_samples]
  split
  · exact natSamples_lb sr _ (le_trans (by norm_num) (get_pause_duration_lb u)) hsr
  · exact natSamples_lb sr _ (get_diphone_duration_lb _ _) hsr

theorem convolveFull_length (a k : List ℝ) :
    (convolveFull a k).length = a.length + k.length - 1 := by
  simp [convolveFull]

theorem npConvolveSame_length3 (a : List ℝ) (x y z : ℝ) (h : 3 ≤ a.length) :
    (npConvolveSame a [x, y, z]).length = a.length := by
  rw [npConvolveSame]
  simp only [List.length_take, List.length_drop, convolveFull_length,
    List.length_cons, List.length_nil]
  omega

theorem apply_vintage_processing_length (audio : List ℝ)
    (h : audio.length = 0 ∨ 3 ≤ audio.length) :
    (DiphoneSynthesizer.apply_vintage_processing audio).length
      = audio.length := by
  rw [DiphoneSynthesizer.apply_vintage_processing]
  rcases h with h | h
  · rw [if_pos h]
  · rw [if_neg (by omega)]
    rw [List.length_map]
    rw [if_pos (by omega : 1 < audio.length)]
    exact npConvolveSame_length3 audio _ _ _ h

theorem mapIdx_map_length {α : Type} (g2 : α → ℕ) :
    ∀ (ds : List α) (f : ℕ → α → List ℝ),
      (∀ i d, (f i d).length = g2 d) →
      ((ds.mapIdx f).map List.length) = ds.map g2 := by
  intro ds
  induction ds with
  | nil => intro f hf; rfl
  | cons d rest ih =>
    intro f hf
    rw [List.mapIdx_cons, List.map_cons, List.map_cons, hf 0 d]
    rw [ih (fun i => f (i + 1)) (fun i a => hf (i + 1) a)]

theorem synthesize_length_eq (sr : ℕ) (g : ℕ → ℕ → ℝ)
    (phonemes : List String) (hsr : 8000 ≤ sr) (hne : phonemes ≠ []) :
    (DiphoneSynthesizer.synthesize sr g phonemes).length
      = ((DiphoneSynthesizer.phonemes_to_diphones phonemes).map
          (DiphoneSynthesizer.unit_samples sr)).sum := by
  rw [DiphoneSynthesizer.synthesize]
  rw [if_neg hne]
  have hseg : ∀ (i : ℕ) (d : String),
      (if DiphoneSynthesizer.is_pause_marker d then
          List.replicate
            (DiphoneSynthesizer.natSamples sr
              (DiphoneSynthesizer.get_pause_duration d)) (0 : ℝ)
        else DiphoneSynthesizer.synthesize_diphone sr (g i) d).length
        = DiphoneSynthesizer.unit_samples sr d := by
    intro i d
    rw [DiphoneSynthesizer.unit_samples]
    split
    · exact List.length_replicate _ _
    · exact synthesize_diphone_length sr (g i) d
  have hflat : (((DiphoneSynthesizer.phonemes_to_diphones phonemes).mapIdx
      (fun i d => if DiphoneSynthesizer.is_pause_marker d then
          List.replicate
            (DiphoneSynthesizer.natSamples sr
              (DiphoneSynthesizer.get_pause_duration d)) (0 : ℝ)
        else DiphoneSynthesizer.synthesize_diphone sr (g i) d)).flatten).length
      = ((DiphoneSynthesizer.phonemes_to_diphones phonemes).map
          (DiphoneSynthesizer.unit_samples sr)).sum := by
    rw [List.length_flatten, mapIdx_map_length _ _ _ hseg]
  rw [apply_vintage_processing_length _ ?_, hflat]
  rw [hflat]
  cases hds : DiphoneSynthesizer.phonemes_to_diphones phonemes with
  | nil => left; rfl
  | cons u rest =>
    right
    rw [List.map_cons, List.sum_cons]
    have := unit_samples_lb sr u hsr
    omega

/-- Claim C4, amended: for every non-empty phoneme sequence (at a valid
sample rate), the synthesized buffer length equals the sum over the emitted
units of `int(duration·sampleRate)` — Python `int()` TRUNCATES, it does not
round — where a diphone contributes `int(diphoneDuration·sr)` samples and a
pause contributes `int(pauseDuration·sr)` samples. -/
theorem c4_length_amended :
    ∀ (sr : ℕ) (g : ℕ → ℕ → ℝ) (phonemes : List String),
      8000 ≤ sr → phonemes ≠ [] →
      (DiphoneSynthesizer.synthesize sr g phonemes).length
        = ((DiphoneSynthesizer.phonemes_to_diphones phonemes).map
            (DiphoneSynthesizer.unit_samples sr)).sum :=
  fun sr g phonemes hsr hne => synthesize_length_eq sr g phonemes hsr hne

/-- Witness for `c4_length_amended` at `sr = 22050`, input `["B","D"]`. -/
theorem c4_length_amended_witness :
    8000 ≤ 22050 ∧ (["B", "D"] : List String) ≠ []
    ∧ (DiphoneSynthesizer.synthesize 22050 (fun _ _ => 0) ["B", "D"]).length
        = ((DiphoneSynthesizer.phonemes_to_diphones ["B", "D"]).map
            (DiphoneSynthesizer.unit_samples 22050)).sum :=
  ⟨by norm_num, by simp,
    c4_length_amended 22050 (fun _ _ => 0) ["B", "D"] (by norm_num) (by simp)⟩

/-- Claim C4, counterexample: at the valid sample rate 8030 the input
`["B","D"]` synthesizes to 1123 samples (`⌊321.2⌋ + ⌊481.8⌋ + ⌊321.2⌋`),
while the claim's per-diphone value `round(duration·sampleRate)` predicts
`321 + 482 + 321 = 1124`: the code truncates with `int()`, it does not
round. -/
theorem c4_length_counterexample :
    (DiphoneSynthesizer.synthesize 8030 (fun _ _ => 0) ["B", "D"]).length = 1123
    ∧ ((round ((DiphoneSynthesizer.get_diphone_duration "SIL" "B" : ℚ) * 8030)).toNat
       + (round ((DiphoneSynthesizer.get_diphone_duration "B" "D" : ℚ) * 8030)).toNat
       + (round ((DiphoneSynthesizer.get_diphone_duration "D" "SIL" : ℚ) * 8030)).toNat)
        = 1124
    ∧ (1123 : ℕ) ≠ 1124 := by
  have hdsb : DiphoneSynthesizer.get_diphone_duration "SIL" "B" = 4/100 := by
    rw [DiphoneSynthesizer.get_diphone_duration, if_pos (Or.inl rfl)]
    norm_num
  have hdds : DiphoneSynthesizer.get_diphone_duration "D" "SIL" = 4/100 := by
    rw [DiphoneSynthesizer.get_diphone_duration, if_pos (Or.inr rfl)]
    norm_num
  have hdbd : DiphoneSynthesizer.get_diphone_duration "B" "D" = 6/100 := by rfl
  refine ⟨?_, ?_, by decide⟩
  · rw [synthesize_length_eq 8030 (fun _ _ => 0) ["B", "D"] (by norm_num)
      (by simp)]
    rw [show DiphoneSynthesizer.phonemes_to_diphones ["B", "D"]
        = ["SIL-B", "B-D", "D-SIL"] by decide]
    have h1 : DiphoneSynthesizer.unit_samples 8030 "SIL-B" = 321 := by
      rw [DiphoneSynthesizer.unit_samples, if_neg (by decide)]
      rw [show DiphoneSynthesizer.split_diphone_name "SIL-B" = ("SIL", "B")
        by decide]
      rw [DiphoneSynthesizer.natSamples, hdsb, truncQ]
      norm_num
      rfl
    have h2 : DiphoneSynthesizer.unit_samples 8030 "B-D" = 481 := by
      rw [DiphoneSynthesizer.unit_samples, if_neg (by decide)]
      rw [show DiphoneSynthesizer.split_diphone_name "B-D" = ("B", "D")
        by decide]
      rw [DiphoneSynthesizer.natSamples, hdbd, truncQ]
      norm_num
      rfl
    have h3 : DiphoneSynthesizer.unit_samples 8030 "D-SIL" = 321 := by
      rw [DiphoneSynthesizer.unit_samples, if_neg (by decide)]
      rw [show DiphoneSynthesizer.split_diphone_name "D-SIL" = ("D", "SIL")
        by decide]
      rw [DiphoneSynthesizer.natSamples, hdds, truncQ]
      norm_num
      rfl
    rw [List.map_cons, List.map_cons, List.map_cons, List.map_nil, h1, h2, h3]
    rfl
  · rw [hdsb, hdds, hdbd]
    have hr1 : round ((4/100 : ℚ) * 8030) = 321 := by
      rw [round_eq]
      norm_num
    have hr2 : round ((6/100 : ℚ) * 8030) = 482 := by
      rw [round_eq]
      norm_num
    rw [hr1, hr2]
    rfl
